import Mathlib

/-!
Shallow embedding of the workforce-management service core
(leave-request service, employee service, department service,
queue worker, cache-invalidation policy) and proofs of the spec's
claims about it.

Conventions of the embedding:
* TypeScript `Date` values are embedded as `Int` millisecond timestamps
  (the value of `Date.prototype.getTime`), so date comparison and
  subtraction in the source map to `Int` comparison and subtraction.
* The Redis store is an association list of entries; `setEx` replaces an
  existing binding and records the TTL, `keys` performs a glob scan,
  `del` removes a batch of keys.
* Stored JSON payloads are embedded structurally (an inductive of the
  JSON shapes this module ever writes); `JSON.stringify`/`JSON.parse`
  on those payloads are the injection into / projection out of that
  inductive.
* Every service method is embedded as a pure function from the states
  it reads at each `await` boundary (separate snapshots where a
  concurrent interleaving could make them differ) to its result, the
  final Redis state, and an ordered trace of the effects it performed.
  Store-transaction outcomes that depend on infrastructure (a throwing
  `dataSource.transaction`, the row id the database assigns, the clock)
  enter as explicit parameters.
-/

/-- Leave request status: the string union `"PENDING" | "APPROVED" | "REJECTED"`. -/
inductive LeaveStatus where
  | PENDING
  | APPROVED
  | REJECTED
deriving Repr, DecidableEq

/-- Rendering of a status back to its source string (used in error messages). -/
def LeaveStatus.toStr : LeaveStatus → String
  | .PENDING => "PENDING"
  | .APPROVED => "APPROVED"
  | .REJECTED => "REJECTED"

/-- Embeds `ILeaveRequest` (src/interfaces/leaveRequest.interface.ts), dates as ms timestamps. -/
structure LeaveRequest where
  id : String
  employeeId : String
  startDate : Int
  endDate : Int
  status : LeaveStatus
deriving Repr, DecidableEq

/-- Embeds `LeaveRequestInsert` (src/interfaces/leaveRequest.interface.ts). -/
structure LeaveRequestInsert where
  employeeId : String
  startDate : Int
  endDate : Int
deriving Repr, DecidableEq

/-- Embeds `Employee` (src/interfaces/employee.interface.ts), identity and lookup fields. -/
structure Employee where
  id : String
  name : String
  email : String
  departmentId : String
deriving Repr, DecidableEq

/-- Embeds `EmployeeInsert` (src/interfaces/employee.interface.ts). -/
structure EmployeeInsert where
  name : String
  email : String
  departmentId : String
deriving Repr, DecidableEq

/-- Embeds the `Department` entity (src/entities/departement.entity.ts). -/
structure Department where
  id : String
  name : String
deriving Repr, DecidableEq

/-- The queue message `{ idempotencyKey, leaveId }` (src/interfaces/message.interface.ts). -/
structure QueueMsg where
  idempotencyKey : String
  leaveId : String
deriving Repr, DecidableEq

/-- Paginated listing response `{ data, count, page, limit }` built by
`DepartmentService.listEmployeesInDepartment`. -/
structure ListResponse where
  data : List Employee
  count : Nat
  page : Nat
  limit : Nat
deriving Repr, DecidableEq

/-- Structural embedding of the JSON payloads this module stores in Redis:
idempotency records for the four operation namespaces and cached listing
responses.  `JSON.stringify` of such a payload is its constructor,
`JSON.parse` of a stored value recovers the fields. -/
inductive RVal where
  | idemCreate (leaveRequestId : String) (createdAt : Int)
  | idemUpdate (leaveRequestId : String) (updatedAt : Int) (status : LeaveStatus)
  | idemDelete (leaveRequestId : String) (deletedAt : Int)
  | idemEmployee (employeeId : String) (createdAt : Int)
  | idemDepartment (departmentId : String) (createdAt : Int)
  | listing (r : ListResponse)
deriving Repr, DecidableEq

/-- One Redis binding: key, stored value, TTL (seconds) it was set with. -/
structure RedisEntry where
  key : String
  value : RVal
  ttl : Nat
deriving Repr, DecidableEq

/-- The Redis keyspace as an association list (later bindings shadow nothing:
`redisSetEx` removes the old binding when writing). -/
abbrev RedisState := List RedisEntry

/-- Models `redisClient.get key`. -/
def redisGet (st : RedisState) (k : String) : Option RVal :=
  (st.find? (fun e => e.key == k)).map (fun e => e.value)

/-- Models `redisClient.setEx key ttl value`. -/
def redisSetEx (st : RedisState) (k : String) (ttl : Nat) (v : RVal) : RedisState :=
  ⟨k, v, ttl⟩ :: st.filter (fun e => !(e.key == k))

/-- Models `redisClient.del keys` (batch delete). -/
def redisDel (st : RedisState) (ks : List String) : RedisState :=
  st.filter (fun e => !(ks.contains e.key))

/-- Fuelled glob matcher: every recursive call lowers the combined length
of pattern and text by at least one, so any fuel above that sum makes the
fuel inexhaustible.  (Structural recursion on the fuel keeps the function
kernel-reducible.) -/
def globMatchAux : Nat → List Char → List Char → Bool
  | 0, _, _ => false
  | _ + 1, [], [] => true
  | f + 1, '*' :: ps, [] => globMatchAux f ps []
  | f + 1, '*' :: ps, c :: cs =>
      globMatchAux f ps (c :: cs) || globMatchAux f ('*' :: ps) cs
  | _ + 1, '?' :: _, [] => false
  | f + 1, '?' :: ps, _ :: cs => globMatchAux f ps cs
  | f + 1, p :: ps, c :: cs => p == c && globMatchAux f ps cs
  | _ + 1, _ :: _, [] => false
  | _ + 1, [], _ :: _ => false

/-- Redis KEYS glob matching over character lists: `*` matches any run of
characters, `?` any single character, anything else matches literally.
(The patterns this module scans with use only a trailing `*`.) -/
def globMatch (ps cs : List Char) : Bool :=
  globMatchAux (ps.length + cs.length + 1) ps cs

/-- Models `redisClient.keys pattern`: the keys currently matching the glob. -/
def redisKeys (st : RedisState) (pattern : String) : List String :=
  (st.filter (fun e => globMatch pattern.toList e.key.toList)).map (fun e => e.key)

/-- Effects a service method performs, in execution order: repository reads,
opening a store transaction, Redis writes/scans/deletes, queue publishes. -/
inductive Effect where
  | employeeLookup (id : String)
  | emailLookup (email : String)
  | departmentLookup (id : String)
  | leaveLookup (id : String)
  | allEmployeesScan
  | storeTx
  | setEx (key : String) (ttl : Nat) (v : RVal)
  | keysScan (pattern : String)
  | del (keys : List String)
  | publish (queue : String) (msg : QueueMsg)
deriving Repr, DecidableEq

/-- Modelled from the spec: the error taxonomy of `src/utils/errors.ts`,
which is absent from the sources (only its callers and the error-handling
middleware are present).  The spec's §7 taxonomy gives `Conflict`
(duplicate idempotency key), `NotFound` (missing entity) and `BadRequest`
(invalid dates / invalid transition) as distinguished `AppError`
subclasses carrying an HTTP status; `genericError` embeds the JavaScript
built-in `Error`, which is none of those (the error-handling middleware
maps it to a 500 response). -/
inductive AppErr where
  | conflict (msg : String)
  | notFound (msg : String)
  | badRequest (msg : String)
  | genericError (msg : String)
deriving Repr, DecidableEq

/-- Embeds `Settings.MAX_RETRIES` with env defaults (src/config/settings.ts). -/
def Settings.MAX_RETRIES : Int := 5

/-- Embeds the `Settings.RABBITMQ_QUEUE_NAME` default (src/config/settings.ts). -/
def Settings.RABBITMQ_QUEUE_NAME : String := "leave_requests"

/-- Embeds the `Settings.RABBITMQ_DLQ_NAME` default (src/config/settings.ts). -/
def Settings.RABBITMQ_DLQ_NAME : String := "leave_requests_dlq"

/-- AMQP message headers the worker reads and writes: `x-retry-count`
and `x-original-queue` (absent fields are `none`; the object spread
`\x7b ...headers, "x-original-queue": q \x7d` keeps the other field). -/
structure AmqpHeaders where
  xRetryCount : Option Int
  xOriginalQueue : Option String
deriving Repr, DecidableEq

/-- Channel operations the worker performs on a message, in order.
`sendToQueue queue content headers persistent` records one publish:
`headers = none` when no options object (or none with headers) was
passed, `persistent` the `persistent: true` flag. -/
inductive ChannelAction where
  | ack
  | sendToQueue (queue : String) (content : String) (headers : Option AmqpHeaders)
      (persistent : Bool)
deriving Repr, DecidableEq

/-- Models `JSON.stringify` applied to a Node `Buffer` holding the UTF-8 bytes of
`b`: Buffers serialize as `\x7b"type":"Buffer","data":[..byte values..]\x7d`
(this is what `sendMessageToQueue(msg.content)` stringifies, since the
worker passes the raw content Buffer where a `LeaveRequesMessage` is
expected). -/
def jsonStringifyBuffer (b : String) : String :=
  "\x7b\"type\":\"Buffer\",\"data\":[" ++
    String.intercalate "," ((String.toUTF8 b).toList.map (fun c => toString c.toNat)) ++
    "]\x7d"

/-- Models `sendMessageToQueue` (src/queue/producer.leaveRequest.ts) as invoked by
the worker's retry branch on `msg.content`: it JSON-stringifies its
argument and publishes the resulting body to the main queue with **no
options argument** — no headers and no persistent flag. -/
def sendMessageToQueueAction (content : String) : ChannelAction :=
  ChannelAction.sendToQueue Settings.RABBITMQ_QUEUE_NAME (jsonStringifyBuffer content)
    none false

/-- The parsed shape `\x7b leaveId, idempotencyKey \x7d` the worker expects. -/
structure LeaveMsgData where
  leaveId : String
  idempotencyKey : String
deriving Repr, DecidableEq

/-- Embeds `handleMessage` (worker entry, per consumed message) as a function of
the message `content` (the Buffer's bytes), its `headers`, the outcome of
`JSON.parse` on the body (`none` = parse threw) and whether the
adjudicating `updateStatus` call threw.  Returns the channel actions the
worker performs.  The `try` block succeeds exactly when the parse and the
adjudication both succeed; any throw lands in the single shared `catch`
block, which reads `x-retry-count` (default 0), increments it, and either
dead-letters (count exceeds `Settings.MAX_RETRIES`) or republishes via
`sendMessageToQueue` — both branches then ack the original. -/
def handleMessage (content : String) (headers : AmqpHeaders)
    (parsed : Option LeaveMsgData) (adjudicationFails : Bool) : List ChannelAction :=
  let success := match parsed with
    | none => false
    | some _ => !adjudicationFails
  if success then
    [ChannelAction.ack]
  else
    let retryCount := headers.xRetryCount.getD 0 + 1
    if retryCount > Settings.MAX_RETRIES then
      [ChannelAction.sendToQueue Settings.RABBITMQ_DLQ_NAME content
          (some { headers with xOriginalQueue := some Settings.RABBITMQ_QUEUE_NAME }) true,
        ChannelAction.ack]
    else
      [sendMessageToQueueAction content, ChannelAction.ack]

/-- The cache-key glob a department-scoped invalidation scans for. -/
def departmentEmployeesPattern (departmentId : String) : String :=
  "departments:" ++ departmentId ++ ":employees*"

/-- Embeds `LeaveRequestService.invalidateDepartmentEmployeeCaches` (private helper):
no-op on an empty `departmentId`; otherwise scans for keys under the
department's `employees*` pattern and, when any exist, deletes them in one
batch `del` call.  Returns the new Redis state and the effect trace. -/
def LeaveRequestService.invalidateDepartmentEmployeeCaches
    (st : RedisState) (departmentId : String) : RedisState × List Effect :=
  if departmentId == "" then (st, [])
  else
    let pattern := departmentEmployeesPattern departmentId
    let keys := redisKeys st pattern
    if keys.length ≠ 0 then
      (redisDel st keys, [Effect.keysScan pattern, Effect.del keys])
    else
      (st, [Effect.keysScan pattern])

/-- Embeds `EmployeeService.invalidateDepartmentEmployeeCaches` (private helper):
the source duplicates the same function body in the employee service. -/
def EmployeeService.invalidateDepartmentEmployeeCaches
    (st : RedisState) (departmentId : String) : RedisState × List Effect :=
  if departmentId == "" then (st, [])
  else
    let pattern := departmentEmployeesPattern departmentId
    let keys := redisKeys st pattern
    if keys.length ≠ 0 then
      (redisDel st keys, [Effect.keysScan pattern, Effect.del keys])
    else
      (st, [Effect.keysScan pattern])

/-- The duplicate-idempotency-key message thrown by every guarded operation. -/
def duplicateRequestMsg : String :=
  "Duplicate request: operation already performed with this idempotency key"

/-- Embeds `LeaveRequestRepository.createRequest`: inserts the payload with status
forced to PENDING; `newId` is the identifier the database assigns on save.
Returns the table after the insert and the saved record. -/
def LeaveRequestRepository.createRequest (leaves : List LeaveRequest) (newId : String)
    (leaveInfo : LeaveRequestInsert) : List LeaveRequest × LeaveRequest :=
  let request : LeaveRequest :=
    { id := newId, employeeId := leaveInfo.employeeId, startDate := leaveInfo.startDate,
      endDate := leaveInfo.endDate, status := LeaveStatus.PENDING }
  (leaves ++ [request], request)

/-- Embeds `LeaveRequestRepository.updateStatus`: `update(\x7bid\x7d, \x7bstatus\x7d)`
followed by `findById(id)` — sets the status on the matching row (if any)
and returns the row looked up afterwards (`none` when no row has that id). -/
def LeaveRequestRepository.updateStatus (leaves : List LeaveRequest) (id : String)
    (status : LeaveStatus) : List LeaveRequest × Option LeaveRequest :=
  let updated := leaves.map (fun l => if l.id == id then { l with status := status } else l)
  (updated, updated.find? (fun l => l.id == id))

/-- Embeds `LeaveRequestService.IDEMPOTENCY_TTL` (24 hours, seconds). -/
def LeaveRequestService.IDEMPOTENCY_TTL : Nat := 86400

/-- Output of `createLeaveRequest`: result, final Redis state, leave table
after the transaction snapshot step, and the ordered effect trace. -/
structure CreateLeaveOut where
  result : Except AppErr LeaveRequest
  redis : RedisState
  leaves : List LeaveRequest
  effects : List Effect
deriving Repr

/-- Embeds `LeaveRequestService.createLeaveRequest`.  Parameters reflect the states
read at each await boundary: `redis` (idempotency check and later writes),
`employees` (the employee lookup), `leavesAtTx` (the table the transaction
runs against), `txFails` (a throwing `dataSource.transaction`, carrying its
message), `newId` (the id the store assigns) and `now` (the clock). -/
def LeaveRequestService.createLeaveRequest
    (redis : RedisState) (employees : List Employee) (leavesAtTx : List LeaveRequest)
    (txFails : Option String) (newId : String) (now : Int)
    (payload : LeaveRequestInsert) (idempotencyKey : String) : CreateLeaveOut :=
  let idempotencyRedisKey := "idempotency:leaverequest:create:" ++ idempotencyKey
  match redisGet redis idempotencyRedisKey with
  | some _ =>
      ⟨.error (.conflict duplicateRequestMsg), redis, leavesAtTx, []⟩
  | none =>
    match employees.find? (fun e => e.id == payload.employeeId) with
    | none =>
        ⟨.error (.notFound ("Employee with ID " ++ payload.employeeId ++ " not found")),
          redis, leavesAtTx, [Effect.employeeLookup payload.employeeId]⟩
    | some employee =>
      if payload.startDate ≥ payload.endDate then
        ⟨.error (.badRequest "End date must be after start date"), redis, leavesAtTx,
          [Effect.employeeLookup payload.employeeId]⟩
      else
        match txFails with
        | some e =>
            ⟨.error (.genericError e), redis, leavesAtTx,
              [Effect.employeeLookup payload.employeeId, Effect.storeTx]⟩
        | none =>
          let txr := LeaveRequestRepository.createRequest leavesAtTx newId payload
          let created := txr.2
          let redis1 := redisSetEx redis idempotencyRedisKey
            LeaveRequestService.IDEMPOTENCY_TTL (RVal.idemCreate created.id now)
          let invOut :=
            if employee.departmentId == "" then (redis1, ([] : List Effect))
            else LeaveRequestService.invalidateDepartmentEmployeeCaches redis1
              employee.departmentId
          let leaveDuration := payload.endDate - payload.startDate
          let pub : List Effect :=
            if leaveDuration < 2 * 24 * 60 * 60 * 1000 then
              [Effect.publish Settings.RABBITMQ_QUEUE_NAME
                { idempotencyKey := idempotencyKey, leaveId := created.id }]
            else []
          ⟨.ok created, invOut.1, txr.1,
            [Effect.employeeLookup payload.employeeId, Effect.storeTx,
              Effect.setEx idempotencyRedisKey LeaveRequestService.IDEMPOTENCY_TTL
                (RVal.idemCreate created.id now)] ++ invOut.2 ++ pub⟩

/-- Output of `updateStatus` (result is `none` when the method returns null). -/
structure UpdateStatusOut where
  result : Except AppErr (Option LeaveRequest)
  redis : RedisState
  leaves : List LeaveRequest
  effects : List Effect
deriving Repr

/-- Embeds `LeaveRequestService.updateStatus`.  Here `leavesAtRead` is the table the
pre-transaction `findById` sees; `leavesAtTx` the table the transactional
update runs against (they differ exactly when a concurrent writer slipped
in between the two awaits); `employees` the table the post-commit employee
resolution sees. -/
def LeaveRequestService.updateStatus
    (redis : RedisState) (leavesAtRead leavesAtTx : List LeaveRequest)
    (employees : List Employee) (txFails : Option String) (now : Int)
    (id : String) (status : LeaveStatus) (idempotencyKey : String) : UpdateStatusOut :=
  let idempotencyRedisKey := "idempotency:leaverequest:update:" ++ idempotencyKey
  match redisGet redis idempotencyRedisKey with
  | some _ =>
      ⟨.error (.conflict duplicateRequestMsg), redis, leavesAtTx, []⟩
  | none =>
    match leavesAtRead.find? (fun l => l.id == id) with
    | none =>
        ⟨.error (.genericError ("Leave request with ID " ++ id ++ " not found")),
          redis, leavesAtTx, [Effect.leaveLookup id]⟩
    | some existingRequest =>
      if existingRequest.status ≠ LeaveStatus.PENDING then
        ⟨.error (.badRequest ("Cannot update leave request status from " ++
            existingRequest.status.toStr ++ " to " ++ status.toStr ++
            ". Only PENDING requests can be updated.")),
          redis, leavesAtTx, [Effect.leaveLookup id]⟩
      else
        match txFails with
        | some e =>
            ⟨.error (.genericError e), redis, leavesAtTx,
              [Effect.leaveLookup id, Effect.storeTx]⟩
        | none =>
          let txr := LeaveRequestRepository.updateStatus leavesAtTx id status
          match txr.2 with
          | none =>
              ⟨.ok none, redis, txr.1, [Effect.leaveLookup id, Effect.storeTx]⟩
          | some updated =>
            let redis1 := redisSetEx redis idempotencyRedisKey
              LeaveRequestService.IDEMPOTENCY_TTL (RVal.idemUpdate updated.id now status)
            let invOut :=
              match employees.find? (fun e => e.id == updated.employeeId) with
              | some employee =>
                  if employee.departmentId == "" then (redis1, ([] : List Effect))
                  else LeaveRequestService.invalidateDepartmentEmployeeCaches redis1
                    employee.departmentId
              | none => (redis1, ([] : List Effect))
            ⟨.ok (some updated), invOut.1, txr.1,
              [Effect.leaveLookup id, Effect.storeTx,
                Effect.setEx idempotencyRedisKey LeaveRequestService.IDEMPOTENCY_TTL
                  (RVal.idemUpdate updated.id now status),
                Effect.employeeLookup updated.employeeId] ++ invOut.2⟩

/-- Output of `deleteLeaveRequest` (the method resolves to undefined). -/
structure DeleteLeaveOut where
  result : Except AppErr Unit
  redis : RedisState
  leaves : List LeaveRequest
  effects : List Effect
deriving Repr

/-- Embeds `LeaveRequestService.deleteLeaveRequest`.  Note the duplicate-key branch
throws the JavaScript built-in `Error` (not `ConflictError`) in the source. -/
def LeaveRequestService.deleteLeaveRequest
    (redis : RedisState) (leavesAtRead leavesAtTx : List LeaveRequest)
    (employees : List Employee) (txFails : Option String) (now : Int)
    (id : String) (idempotencyKey : String) : DeleteLeaveOut :=
  let idempotencyRedisKey := "idempotency:leaverequest:delete:" ++ idempotencyKey
  match redisGet redis idempotencyRedisKey with
  | some _ =>
      ⟨.error (.genericError duplicateRequestMsg), redis, leavesAtTx, []⟩
  | none =>
    match leavesAtRead.find? (fun l => l.id == id) with
    | none =>
        ⟨.error (.genericError ("Leave request with ID " ++ id ++ " not found")),
          redis, leavesAtTx, [Effect.leaveLookup id]⟩
    | some existingRequest =>
      match txFails with
      | some e =>
          ⟨.error (.genericError e), redis, leavesAtTx,
            [Effect.leaveLookup id, Effect.storeTx]⟩
      | none =>
        let leavesOut := leavesAtTx.filter (fun l => !(l.id == id))
        let redis1 := redisSetEx redis idempotencyRedisKey
          LeaveRequestService.IDEMPOTENCY_TTL (RVal.idemDelete id now)
        let employeeId := existingRequest.employeeId
        let base := [Effect.leaveLookup id, Effect.storeTx,
          Effect.setEx idempotencyRedisKey LeaveRequestService.IDEMPOTENCY_TTL
            (RVal.idemDelete id now)]
        if employeeId == "" then
          ⟨.ok (), redis1, leavesOut, base⟩
        else
          match employees.find? (fun e => e.id == employeeId) with
          | none =>
              ⟨.ok (), redis1, leavesOut, base ++ [Effect.employeeLookup employeeId]⟩
          | some employee =>
            if employee.departmentId == "" then
              ⟨.ok (), redis1, leavesOut, base ++ [Effect.employeeLookup employeeId]⟩
            else
              let invOut := LeaveRequestService.invalidateDepartmentEmployeeCaches redis1
                employee.departmentId
              ⟨.ok (), invOut.1, leavesOut,
                base ++ [Effect.employeeLookup employeeId] ++ invOut.2⟩

/-- The test of `/^[^\s@]+@[^\s@]+\.[^\s@]+$/` (the email check in
`EmployeeService.createEmployee`): exactly one `@`; a nonempty run of
non-whitespace, non-`@` characters before it; after it a nonempty domain of
such characters containing a `.` that is neither its first nor its last
character.  JavaScript `\s` is modelled by `Char.isWhitespace`. -/
def emailRegexTest (s : String) : Bool :=
  let ok := fun (c : Char) => !c.isWhitespace && !(c == '@')
  match s.toList.splitOn '@' with
  | [l, d] =>
      !l.isEmpty && l.all ok && d.all ok &&
        (d.enum.any (fun p => p.2 == '.' && decide (1 ≤ p.1) && decide (p.1 + 1 < d.length)))
  | _ => false

/-- Output of `createEmployee`. -/
structure CreateEmployeeOut where
  result : Except AppErr Employee
  redis : RedisState
  employees : List Employee
  effects : List Effect
deriving Repr

/-- Embeds `EmployeeService.createEmployee`.  Snapshot parameters: `departments`
(the existence check), `employeesAtEmailCheck` (the duplicate-email
lookup), `employeesAtTx` (the table the transactional insert runs
against); `txFails`, `newId`, `now` as for the other services.  The
department-existence check runs only when `departmentId` is truthy
(nonempty); the invalid-email branch throws the JavaScript built-in
`Error`. -/
def EmployeeService.createEmployee
    (redis : RedisState) (departments : List Department)
    (employeesAtEmailCheck employeesAtTx : List Employee)
    (txFails : Option String) (newId : String) (now : Int)
    (employeeInfo : EmployeeInsert) (idempotencyKey : String) : CreateEmployeeOut :=
  let idempotencyRedisKey := "idempotency:employee:" ++ idempotencyKey
  match redisGet redis idempotencyRedisKey with
  | some _ =>
      ⟨.error (.conflict duplicateRequestMsg), redis, employeesAtTx, []⟩
  | none =>
    let deptCheck : Option AppErr × List Effect :=
      if employeeInfo.departmentId == "" then (none, [])
      else
        match departments.find? (fun d => d.id == employeeInfo.departmentId) with
        | none =>
            (some (.notFound ("Department with ID " ++ employeeInfo.departmentId ++
              " not found")), [Effect.departmentLookup employeeInfo.departmentId])
        | some _ => (none, [Effect.departmentLookup employeeInfo.departmentId])
    match deptCheck with
    | (some err, effs) => ⟨.error err, redis, employeesAtTx, effs⟩
    | (none, effs) =>
      if !emailRegexTest employeeInfo.email then
        ⟨.error (.genericError "Invalid email format"), redis, employeesAtTx, effs⟩
      else
        match employeesAtEmailCheck.find? (fun e => e.email == employeeInfo.email) with
        | some _ =>
            ⟨.error (.conflict ("Employee with email " ++ employeeInfo.email ++
                " already exists")),
              redis, employeesAtTx, effs ++ [Effect.emailLookup employeeInfo.email]⟩
        | none =>
          match txFails with
          | some e =>
              ⟨.error (.genericError e), redis, employeesAtTx,
                effs ++ [Effect.emailLookup employeeInfo.email, Effect.storeTx]⟩
          | none =>
            let created : Employee :=
              { id := newId, name := employeeInfo.name, email := employeeInfo.email,
                departmentId := employeeInfo.departmentId }
            let redis1 := redisSetEx redis idempotencyRedisKey 86400
              (RVal.idemEmployee created.id now)
            let invOut :=
              if created.departmentId == "" then (redis1, ([] : List Effect))
              else EmployeeService.invalidateDepartmentEmployeeCaches redis1
                created.departmentId
            ⟨.ok created, invOut.1, employeesAtTx ++ [created],
              effs ++ [Effect.emailLookup employeeInfo.email, Effect.storeTx,
                Effect.setEx idempotencyRedisKey 86400
                  (RVal.idemEmployee created.id now)] ++ invOut.2⟩

/-- Embeds `DepartmentService.CACHE_TTL` (seconds). -/
def DepartmentService.CACHE_TTL : Nat := 60

/-- The projection `JSON.parse` performs on a cached listing payload.  The
source returns the parsed object with an unchecked cast; for keys written
by `listEmployeesInDepartment` the stored value is always a `listing`, so
the remaining arms (a type-confused read no reachable state of this module
produces under that key) return an empty response. -/
def decodeListing : RVal → ListResponse
  | RVal.listing r => r
  | _ => { data := [], count := 0, page := 0, limit := 0 }

/-- Output of `listEmployeesInDepartment`. -/
structure ListEmpOut where
  response : ListResponse
  redis : RedisState
  effects : List Effect
deriving Repr

/-- Embeds `DepartmentService.listEmployeesInDepartment`: per-department,
per-page cached listing.  On a hit the cached value is parsed and
returned without consulting the employee repository; on a miss all
employees are fetched, filtered by department, sliced
`[(page-1)*limit, (page-1)*limit + limit)`, and the response is cached
for `CACHE_TTL` seconds. -/
def DepartmentService.listEmployeesInDepartment
    (redis : RedisState) (employees : List Employee)
    (departmentId : String) (page limit : Nat) : ListEmpOut :=
  let cacheKey := "departments:" ++ departmentId ++ ":employees:page=" ++
    toString page ++ "&limit=" ++ toString limit
  match redisGet redis cacheKey with
  | some v => ⟨decodeListing v, redis, []⟩
  | none =>
    let allEmployees := employees
    let filtered := allEmployees.filter (fun emp => emp.departmentId == departmentId)
    let start := (page - 1) * limit
    let paginated := (filtered.drop start).take limit
    let response : ListResponse :=
      { data := paginated, count := filtered.length, page := page, limit := limit }
    ⟨response,
      redisSetEx redis cacheKey DepartmentService.CACHE_TTL (RVal.listing response),
      [Effect.allEmployeesScan,
        Effect.setEx cacheKey DepartmentService.CACHE_TTL (RVal.listing response)]⟩

/-- The call with the signature defaults `page = 1, limit = 10`. -/
def DepartmentService.listEmployeesInDepartmentDefaults
    (redis : RedisState) (employees : List Employee) (departmentId : String) : ListEmpOut :=
  DepartmentService.listEmployeesInDepartment redis employees departmentId 1 10

/-- Does an effect publish to a queue? -/
def Effect.isPublish : Effect → Bool
  | .publish _ _ => true
  | _ => false

/-- Is an error the Conflict variant? -/
def AppErr.isConflict : AppErr → Bool
  | .conflict _ => true
  | _ => false

/-- C1: for a failed message carrying `x-retry-count = 2`, the worker's
under-maximum branch republishes to the main queue through
`sendMessageToQueue(msg.content)`, which passes no options: the republished
message has **no headers at all** (the incremented retry count 3 is not
carried forward), and its body is the JSON serialization of the content
Buffer rather than the original body.  This contradicts the claim's
republish clause (and the source's own comment "Requeue message with
incremented retry count"): a repeatedly failing message restarts from a
missing retry count every cycle and can never reach the DLQ through the
counter. -/
theorem handleMessage_retry_drops_count :
    handleMessage "abc" { xRetryCount := some 2, xOriginalQueue := none }
        (some { leaveId := "L1", idempotencyKey := "K1" }) true =
      [ChannelAction.sendToQueue Settings.RABBITMQ_QUEUE_NAME
          (jsonStringifyBuffer "abc") none false,
        ChannelAction.ack] ∧
    jsonStringifyBuffer "abc" ≠ "abc" := by
  exact ⟨rfl, by decide⟩

/-- C8: a message whose body fails to parse takes exactly the action
sequence of a message whose adjudication fails (the shared catch block),
and that sequence always contains an acknowledgment — a non-JSON message
is never dropped without acknowledgment bookkeeping. -/
theorem handleMessage_parse_failure_retry_path
    (content : String) (headers : AmqpHeaders) (d : LeaveMsgData) (b : Bool) :
    handleMessage content headers none b = handleMessage content headers (some d) true ∧
    ChannelAction.ack ∈ handleMessage content headers none b := by
  constructor
  · rfl
  · unfold handleMessage
    by_cases h : headers.xRetryCount.getD 0 + 1 > Settings.MAX_RETRIES
    · simp [h]
    · simp [h]

/-- A Redis state holding idempotency records for key `"K"` in all three
leave-request operation namespaces. -/
def dupKeyRedis : RedisState :=
  [⟨"idempotency:leaverequest:create:K", RVal.idemCreate "L1" 0, 86400⟩,
   ⟨"idempotency:leaverequest:update:K", RVal.idemUpdate "L1" 0 LeaveStatus.APPROVED, 86400⟩,
   ⟨"idempotency:leaverequest:delete:K", RVal.idemDelete "L1" 0, 86400⟩]

/-- C2 counterexample: a `deleteLeaveRequest` whose idempotency key already
has a record rejects with the JavaScript built-in `Error` (mapped to a 500
by the error middleware), not with a Conflict error as the claim states:
the source's delete branch throws `new Error(...)` where create and update
throw `ConflictError`. -/
theorem deleteLeaveRequest_duplicate_not_conflict :
    (LeaveRequestService.deleteLeaveRequest dupKeyRedis [] [] [] none 0 "L1" "K").result =
      Except.error (AppErr.genericError duplicateRequestMsg) ∧
    AppErr.isConflict (AppErr.genericError duplicateRequestMsg) = false := by
  exact ⟨rfl, rfl⟩

/-- C2 amended: for every create or update call whose idempotency key
already has a record at check time, the operation rejects with a Conflict
error, and a delete call in that situation rejects with a plain `Error`
carrying the same duplicate-request message; in all three cases the
rejection happens before touching the store — the full output equals the
input state with an empty effect trace: no transaction is opened, no
idempotency record is written, no cache key is invalidated, and no message
is published. -/
theorem idempotency_duplicate_rejects_before_store
    (redis : RedisState) (employees : List Employee)
    (leavesR leavesT : List LeaveRequest) (txFails : Option String)
    (newId : String) (now : Int) (payload : LeaveRequestInsert)
    (id : String) (status : LeaveStatus) (key : String) (v1 v2 v3 : RVal) :
    (redisGet redis ("idempotency:leaverequest:create:" ++ key) = some v1 →
      LeaveRequestService.createLeaveRequest redis employees leavesT txFails newId now
          payload key =
        ⟨.error (.conflict duplicateRequestMsg), redis, leavesT, []⟩) ∧
    (redisGet redis ("idempotency:leaverequest:update:" ++ key) = some v2 →
      LeaveRequestService.updateStatus redis leavesR leavesT employees txFails now
          id status key =
        ⟨.error (.conflict duplicateRequestMsg), redis, leavesT, []⟩) ∧
    (redisGet redis ("idempotency:leaverequest:delete:" ++ key) = some v3 →
      LeaveRequestService.deleteLeaveRequest redis leavesR leavesT employees txFails now
          id key =
        ⟨.error (.genericError duplicateRequestMsg), redis, leavesT, []⟩) := by
  refine ⟨?_, ?_, ?_⟩
  · intro h
    unfold LeaveRequestService.createLeaveRequest
    simp only [h]
  · intro h
    unfold LeaveRequestService.updateStatus
    simp only [h]
  · intro h
    unfold LeaveRequestService.deleteLeaveRequest
    simp only [h]

/-- C2 witness: the amended theorem applied at `dupKeyRedis` and key `"K"`,
with each duplicate-record hypothesis discharged by evaluation. -/
theorem idempotency_duplicate_rejects_before_store_witness :
    LeaveRequestService.createLeaveRequest dupKeyRedis [] [] none "N" 0
        ⟨"E", 0, 1⟩ "K" =
      ⟨.error (.conflict duplicateRequestMsg), dupKeyRedis, [], []⟩ ∧
    LeaveRequestService.updateStatus dupKeyRedis [] [] [] none 0
        "L1" LeaveStatus.APPROVED "K" =
      ⟨.error (.conflict duplicateRequestMsg), dupKeyRedis, [], []⟩ ∧
    LeaveRequestService.deleteLeaveRequest dupKeyRedis [] [] [] none 0 "L1" "K" =
      ⟨.error (.genericError duplicateRequestMsg), dupKeyRedis, [], []⟩ := by
  have h := idempotency_duplicate_rejects_before_store dupKeyRedis [] [] [] none "N" 0
    ⟨"E", 0, 1⟩ "L1" LeaveStatus.APPROVED "K"
    (RVal.idemCreate "L1" 0) (RVal.idemUpdate "L1" 0 LeaveStatus.APPROVED)
    (RVal.idemDelete "L1" 0)
  exact ⟨h.1 rfl, h.2.1 rfl, h.2.2 rfl⟩

/-- The effect trace of a department cache invalidation contains no queue
publish (it is only a key scan and possibly one batch delete). -/
lemma invalidate_effects_no_publish (st : RedisState) (d : String) :
    (LeaveRequestService.invalidateDepartmentEmployeeCaches st d).2.filter
      Effect.isPublish = [] := by
  simp only [LeaveRequestService.invalidateDepartmentEmployeeCaches]
  split
  · rfl
  · split <;> rfl

/-- Branch analysis of a successful `createLeaveRequest`: success implies the
idempotency check found no record, the employee was found, the dates were
valid, the transaction did not throw, and the created record is the payload
with the assigned id and status PENDING. -/
lemma createLeaveRequest_ok_elim
    (redis : RedisState) (employees : List Employee) (leavesT : List LeaveRequest)
    (txFails : Option String) (newId : String) (now : Int)
    (payload : LeaveRequestInsert) (key : String) (created : LeaveRequest)
    (hok : (LeaveRequestService.createLeaveRequest redis employees leavesT txFails
        newId now payload key).result = Except.ok created) :
    redisGet redis ("idempotency:leaverequest:create:" ++ key) = none ∧
    (∃ employee, employees.find? (fun e => e.id == payload.employeeId) = some employee) ∧
    ¬ payload.startDate ≥ payload.endDate ∧
    txFails = none ∧
    created = ⟨newId, payload.employeeId, payload.startDate, payload.endDate,
      LeaveStatus.PENDING⟩ := by
  unfold LeaveRequestService.createLeaveRequest at hok
  cases hget : redisGet redis ("idempotency:leaverequest:create:" ++ key) with
  | some v => simp only [hget] at hok; simp at hok
  | none =>
    simp only [hget] at hok
    cases hemp : employees.find? (fun e => e.id == payload.employeeId) with
    | none => simp only [hemp] at hok; simp at hok
    | some employee =>
      simp only [hemp] at hok
      by_cases hdate : payload.startDate ≥ payload.endDate
      · rw [if_pos hdate] at hok; simp at hok
      · rw [if_neg hdate] at hok
        cases txFails with
        | some e => simp at hok
        | none =>
          refine ⟨rfl, ⟨employee, rfl⟩, hdate, rfl, ?_⟩
          simp [LeaveRequestRepository.createRequest] at hok
          exact hok.symm

/-- The full output of `createLeaveRequest` on its success branch. -/
lemma createLeaveRequest_success_eq
    (redis : RedisState) (employees : List Employee) (leavesT : List LeaveRequest)
    (newId : String) (now : Int) (payload : LeaveRequestInsert) (key : String)
    (employee : Employee)
    (hget : redisGet redis ("idempotency:leaverequest:create:" ++ key) = none)
    (hemp : employees.find? (fun e => e.id == payload.employeeId) = some employee)
    (hdate : ¬ payload.startDate ≥ payload.endDate) :
    LeaveRequestService.createLeaveRequest redis employees leavesT none newId now
        payload key =
      (let created : LeaveRequest := ⟨newId, payload.employeeId, payload.startDate,
        payload.endDate, LeaveStatus.PENDING⟩
       let redis1 := redisSetEx redis ("idempotency:leaverequest:create:" ++ key)
         LeaveRequestService.IDEMPOTENCY_TTL (RVal.idemCreate newId now)
       let invOut := if employee.departmentId == "" then (redis1, ([] : List Effect))
         else LeaveRequestService.invalidateDepartmentEmployeeCaches redis1
           employee.departmentId
       let pub : List Effect :=
         if payload.endDate - payload.startDate < 2 * 24 * 60 * 60 * 1000 then
           [Effect.publish Settings.RABBITMQ_QUEUE_NAME ⟨key, newId⟩]
         else []
       ⟨.ok created, invOut.1, leavesT ++ [created],
         [Effect.employeeLookup payload.employeeId, Effect.storeTx,
           Effect.setEx ("idempotency:leaverequest:create:" ++ key)
             LeaveRequestService.IDEMPOTENCY_TTL (RVal.idemCreate newId now)] ++
           invOut.2 ++ pub⟩) := by
  unfold LeaveRequestService.createLeaveRequest LeaveRequestRepository.createRequest
  simp only [hget, hemp, if_neg hdate]

/-- C3: whenever `createLeaveRequest` succeeds, the effect trace contains
exactly one publish — of `\x7b idempotencyKey, leaveId := created.id \x7d` to the
main queue — when `endDate - startDate` is under two days (in ms), and no
publish at all when the duration is two days or more. -/
theorem createLeaveRequest_publish_iff_short
    (redis : RedisState) (employees : List Employee) (leavesT : List LeaveRequest)
    (txFails : Option String) (newId : String) (now : Int)
    (payload : LeaveRequestInsert) (key : String) (created : LeaveRequest)
    (hok : (LeaveRequestService.createLeaveRequest redis employees leavesT txFails
        newId now payload key).result = Except.ok created) :
    (payload.endDate - payload.startDate < 2 * 24 * 60 * 60 * 1000 →
      (LeaveRequestService.createLeaveRequest redis employees leavesT txFails newId now
          payload key).effects.filter Effect.isPublish =
        [Effect.publish Settings.RABBITMQ_QUEUE_NAME
          { idempotencyKey := key, leaveId := created.id }]) ∧
    (¬ payload.endDate - payload.startDate < 2 * 24 * 60 * 60 * 1000 →
      (LeaveRequestService.createLeaveRequest redis employees leavesT txFails newId now
          payload key).effects.filter Effect.isPublish = []) := by
  obtain ⟨hget, ⟨employee, hemp⟩, hdate, htx, hcr⟩ :=
    createLeaveRequest_ok_elim redis employees leavesT txFails newId now payload key
      created hok
  subst htx
  subst hcr
  rw [createLeaveRequest_success_eq redis employees leavesT newId now payload key
    employee hget hemp hdate]
  constructor
  · intro hshort
    have hshort2 : payload.endDate - payload.startDate < 172800000 := by omega
    by_cases hd : employee.departmentId == "" <;>
      simp [hd, hshort2, List.filter_append, invalidate_effects_no_publish,
        Effect.isPublish]
  · intro hlong
    have hlong2 : ¬ payload.endDate - payload.startDate < 172800000 := by omega
    by_cases hd : employee.departmentId == "" <;>
      simp [hd, hlong2, List.filter_append, invalidate_effects_no_publish,
        Effect.isPublish]

/-- C3 witness: a one-day request (short) publishes exactly its message. -/
theorem createLeaveRequest_publish_iff_short_witness :
    (LeaveRequestService.createLeaveRequest [] [⟨"E1", "Ann", "a@b.c", "D1"⟩] [] none
        "L1" 0 ⟨"E1", 0, 86400000⟩ "K").effects.filter Effect.isPublish =
      [Effect.publish Settings.RABBITMQ_QUEUE_NAME
        { idempotencyKey := "K", leaveId := "L1" }] := by
  have h := createLeaveRequest_publish_iff_short [] [⟨"E1", "Ann", "a@b.c", "D1"⟩] []
    none "L1" 0 ⟨"E1", 0, 86400000⟩ "K"
    ⟨"L1", "E1", 0, 86400000, LeaveStatus.PENDING⟩ (by rfl)
  exact h.1 (by decide)

/-- C5: when the pre-transaction checks pass and the store transaction
throws, `createLeaveRequest` propagates that error and performs nothing
further: the Redis state is returned untouched (no idempotency record, no
cache invalidation) and the trace holds only the employee lookup and the
failed transaction — no publish.  A retry with the same key thus starts
from an unchanged idempotency state. -/
theorem createLeaveRequest_tx_failure_frame
    (redis : RedisState) (employees : List Employee) (leavesT : List LeaveRequest)
    (newId : String) (now : Int) (payload : LeaveRequestInsert) (key : String)
    (employee : Employee) (e : String)
    (hget : redisGet redis ("idempotency:leaverequest:create:" ++ key) = none)
    (hemp : employees.find? (fun em => em.id == payload.employeeId) = some employee)
    (hdate : ¬ payload.startDate ≥ payload.endDate) :
    LeaveRequestService.createLeaveRequest redis employees leavesT (some e) newId now
        payload key =
      ⟨.error (.genericError e), redis, leavesT,
        [Effect.employeeLookup payload.employeeId, Effect.storeTx]⟩ := by
  unfold LeaveRequestService.createLeaveRequest
  simp only [hget, hemp, if_neg hdate]

/-- C5 witness: a concrete failing transaction returns the error and the
unchanged state. -/
theorem createLeaveRequest_tx_failure_frame_witness :
    LeaveRequestService.createLeaveRequest [] [⟨"E1", "Ann", "a@b.c", "D1"⟩] []
        (some "Database error") "L1" 0 ⟨"E1", 0, 86400000⟩ "K" =
      ⟨.error (.genericError "Database error"), [], [],
        [Effect.employeeLookup "E1", Effect.storeTx]⟩ := by
  exact createLeaveRequest_tx_failure_frame [] [⟨"E1", "Ann", "a@b.c", "D1"⟩] [] "L1" 0
    ⟨"E1", 0, 86400000⟩ "K" ⟨"E1", "Ann", "a@b.c", "D1"⟩ "Database error" (by rfl)
    (by rfl) (by decide)

/-- A row returned by the repository's update-then-find carries the status
that was written. -/
lemma repoUpdateStatus_some_status
    (leaves : List LeaveRequest) (id : String) (status : LeaveStatus)
    (u : LeaveRequest)
    (h : (LeaveRequestRepository.updateStatus leaves id status).2 = some u) :
    u.status = status := by
  unfold LeaveRequestRepository.updateStatus at h
  have hpred := List.find?_some h
  have hmem := List.mem_of_find?_eq_some h
  rw [List.mem_map] at hmem
  obtain ⟨l, _, hfl⟩ := hmem
  by_cases hid : (l.id == id) = true
  · rw [if_pos hid] at hfl
    rw [← hfl]
  · rw [if_neg hid] at hfl
    subst hfl
    exact absurd hpred hid

/-- Branch analysis of an `updateStatus` run that returned a row: the
idempotency check found no record, the pre-transaction read found a PENDING
request, the transaction did not throw, and the returned row is the one the
transactional update yielded. -/
lemma updateStatus_ok_some_elim
    (redis : RedisState) (leavesR leavesT : List LeaveRequest)
    (employees : List Employee) (txFails : Option String) (now : Int)
    (id : String) (status : LeaveStatus) (key : String) (updated : LeaveRequest)
    (hok : (LeaveRequestService.updateStatus redis leavesR leavesT employees txFails
        now id status key).result = Except.ok (some updated)) :
    redisGet redis ("idempotency:leaverequest:update:" ++ key) = none ∧
    (∃ existing, leavesR.find? (fun l => l.id == id) = some existing ∧
      existing.status = LeaveStatus.PENDING) ∧
    txFails = none ∧
    (LeaveRequestRepository.updateStatus leavesT id status).2 = some updated := by
  unfold LeaveRequestService.updateStatus at hok
  cases hget : redisGet redis ("idempotency:leaverequest:update:" ++ key) with
  | some v => simp only [hget] at hok; simp at hok
  | none =>
    simp only [hget] at hok
    cases hfd : leavesR.find? (fun l => l.id == id) with
    | none => simp only [hfd] at hok; simp at hok
    | some existing =>
      simp only [hfd] at hok
      by_cases hpend : existing.status = LeaveStatus.PENDING
      · rw [if_neg (not_ne_iff.mpr hpend)] at hok
        cases txFails with
        | some e => simp at hok
        | none =>
          cases hupd : (LeaveRequestRepository.updateStatus leavesT id status).2 with
          | none => simp only [hupd] at hok; simp at hok
          | some u =>
            simp only [hupd] at hok
            simp at hok
            exact ⟨rfl, ⟨existing, rfl, hpend⟩, rfl, by rw [hok]⟩
      · rw [if_pos hpend] at hok
        simp at hok

/-- The full output of `updateStatus` on the branch where the transactional
update returned a row. -/
lemma updateStatus_success_eq
    (redis : RedisState) (leavesR leavesT : List LeaveRequest)
    (employees : List Employee) (now : Int)
    (id : String) (status : LeaveStatus) (key : String)
    (existing updated : LeaveRequest)
    (hget : redisGet redis ("idempotency:leaverequest:update:" ++ key) = none)
    (hfd : leavesR.find? (fun l => l.id == id) = some existing)
    (hpend : existing.status = LeaveStatus.PENDING)
    (hupd : (LeaveRequestRepository.updateStatus leavesT id status).2 = some updated) :
    LeaveRequestService.updateStatus redis leavesR leavesT employees none now id
        status key =
      (let redis1 := redisSetEx redis ("idempotency:leaverequest:update:" ++ key)
         LeaveRequestService.IDEMPOTENCY_TTL (RVal.idemUpdate updated.id now status)
       let invOut := match employees.find? (fun e => e.id == updated.employeeId) with
         | some employee =>
             if employee.departmentId == "" then (redis1, ([] : List Effect))
             else LeaveRequestService.invalidateDepartmentEmployeeCaches redis1
               employee.departmentId
         | none => (redis1, ([] : List Effect))
       ⟨.ok (some updated), invOut.1,
         (LeaveRequestRepository.updateStatus leavesT id status).1,
         [Effect.leaveLookup id, Effect.storeTx,
           Effect.setEx ("idempotency:leaverequest:update:" ++ key)
             LeaveRequestService.IDEMPOTENCY_TTL (RVal.idemUpdate updated.id now status),
           Effect.employeeLookup updated.employeeId] ++ invOut.2⟩) := by
  unfold LeaveRequestService.updateStatus
  simp only [hget, hfd, if_neg (not_ne_iff.mpr hpend), hupd]

/-- C4: a leave request is created with status PENDING (the repository
forces it, and a successful service-level create returns a PENDING record);
when the request seen at check time is not PENDING, `updateStatus` rejects
with a BadRequest whose message names the current and the requested status;
and a successful status-changing update (with no concurrent interleaving
between the check and the transaction) starts from a PENDING row and lands
on APPROVED or REJECTED — the only transitions performed. -/
theorem leaveStatus_state_machine
    (redis : RedisState) (leavesR leavesT leaves : List LeaveRequest)
    (employees : List Employee) (txFails : Option String)
    (newId : String) (now : Int) (payload : LeaveRequestInsert)
    (id key : String) (status : LeaveStatus)
    (created updated existing : LeaveRequest) :
    ((LeaveRequestRepository.createRequest leaves newId payload).2.status =
      LeaveStatus.PENDING) ∧
    ((LeaveRequestService.createLeaveRequest redis employees leavesT txFails newId now
        payload key).result = Except.ok created → created.status = LeaveStatus.PENDING) ∧
    (redisGet redis ("idempotency:leaverequest:update:" ++ key) = none →
      leavesR.find? (fun l => l.id == id) = some existing →
      existing.status ≠ LeaveStatus.PENDING →
      (LeaveRequestService.updateStatus redis leavesR leavesT employees txFails now id
          status key).result =
        Except.error (.badRequest ("Cannot update leave request status from " ++
          existing.status.toStr ++ " to " ++ status.toStr ++
          ". Only PENDING requests can be updated."))) ∧
    ((LeaveRequestService.updateStatus redis leavesR leavesR employees txFails now id
        status key).result = Except.ok (some updated) →
      updated.status ≠ LeaveStatus.PENDING →
      ∃ prev, leavesR.find? (fun l => l.id == id) = some prev ∧
        prev.status = LeaveStatus.PENDING ∧
        (updated.status = LeaveStatus.APPROVED ∨
          updated.status = LeaveStatus.REJECTED)) := by
  refine ⟨rfl, ?_, ?_, ?_⟩
  · intro hok
    obtain ⟨_, _, _, _, hcr⟩ :=
      createLeaveRequest_ok_elim redis employees leavesT txFails newId now payload key
        created hok
    rw [hcr]
  · intro hget hfd hne
    unfold LeaveRequestService.updateStatus
    simp only [hget, hfd, if_pos hne]
  · intro hok hne
    obtain ⟨_, ⟨prev, hprev, hpend⟩, _, hupd⟩ :=
      updateStatus_ok_some_elim redis leavesR leavesR employees txFails now id status
        key updated hok
    have hstat := repoUpdateStatus_some_status leavesR id status updated hupd
    refine ⟨prev, hprev, hpend, ?_⟩
    cases status with
    | PENDING => exact absurd hstat hne
    | APPROVED => exact Or.inl hstat
    | REJECTED => exact Or.inr hstat

/-- C4 witness: a PENDING request updated to APPROVED yields the transition
PENDING → APPROVED, and an update attempt on an APPROVED request rejects
with the BadRequest naming both statuses. -/
theorem leaveStatus_state_machine_witness :
    (∃ prev, ([⟨"L1", "E1", 0, 1, LeaveStatus.PENDING⟩] :
        List LeaveRequest).find? (fun l => l.id == "L1") = some prev ∧
      prev.status = LeaveStatus.PENDING ∧
      ((⟨"L1", "E1", 0, 1, LeaveStatus.APPROVED⟩ : LeaveRequest).status =
          LeaveStatus.APPROVED ∨
        (⟨"L1", "E1", 0, 1, LeaveStatus.APPROVED⟩ : LeaveRequest).status =
          LeaveStatus.REJECTED)) ∧
    (LeaveRequestService.updateStatus [] [⟨"L2", "E1", 0, 1, LeaveStatus.APPROVED⟩] []
        [] none 0 "L2" LeaveStatus.REJECTED "K").result =
      Except.error (.badRequest ("Cannot update leave request status from " ++
        LeaveStatus.APPROVED.toStr ++ " to " ++ LeaveStatus.REJECTED.toStr ++
        ". Only PENDING requests can be updated.")) := by
  constructor
  · exact (leaveStatus_state_machine [] [⟨"L1", "E1", 0, 1, LeaveStatus.PENDING⟩]
      [] [] [] none "N" 0 ⟨"E1", 0, 1⟩ "L1" "K" LeaveStatus.APPROVED
      ⟨"N", "E1", 0, 1, LeaveStatus.PENDING⟩ ⟨"L1", "E1", 0, 1, LeaveStatus.APPROVED⟩
      ⟨"L1", "E1", 0, 1, LeaveStatus.PENDING⟩).2.2.2 (by rfl) (by decide)
  · exact (leaveStatus_state_machine [] [⟨"L2", "E1", 0, 1, LeaveStatus.APPROVED⟩]
      [] [] [] none "N" 0 ⟨"E1", 0, 1⟩ "L2" "K" LeaveStatus.REJECTED
      ⟨"N", "E1", 0, 1, LeaveStatus.PENDING⟩ ⟨"L2", "E1", 0, 1, LeaveStatus.APPROVED⟩
      ⟨"L2", "E1", 0, 1, LeaveStatus.APPROVED⟩).2.2.1 (by rfl) (by rfl) (by decide)

/-- C7: when the pre-checks pass but the transactional update returns no
row, `updateStatus` returns null with the Redis state untouched and a trace
holding only the read and the transaction: no idempotency record is
written, no employee is resolved, and no cache key is invalidated. -/
theorem updateStatus_no_row_noop
    (redis : RedisState) (leavesR leavesT : List LeaveRequest)
    (employees : List Employee) (now : Int) (id : String) (status : LeaveStatus)
    (key : String) (existing : LeaveRequest)
    (hget : redisGet redis ("idempotency:leaverequest:update:" ++ key) = none)
    (hfd : leavesR.find? (fun l => l.id == id) = some existing)
    (hpend : existing.status = LeaveStatus.PENDING)
    (hupd : (LeaveRequestRepository.updateStatus leavesT id status).2 = none) :
    LeaveRequestService.updateStatus redis leavesR leavesT employees none now id
        status key =
      ⟨.ok none, redis, (LeaveRequestRepository.updateStatus leavesT id status).1,
        [Effect.leaveLookup id, Effect.storeTx]⟩ := by
  unfold LeaveRequestService.updateStatus
  simp only [hget, hfd, if_neg (not_ne_iff.mpr hpend), hupd]

/-- C7 witness: the request exists at the read but the transaction sees an
empty table (deleted concurrently) — the call returns null and changes
nothing. -/
theorem updateStatus_no_row_noop_witness :
    LeaveRequestService.updateStatus [] [⟨"L1", "E1", 0, 1, LeaveStatus.PENDING⟩] []
        [] none 0 "L1" LeaveStatus.APPROVED "K" =
      ⟨.ok none, [],
        (LeaveRequestRepository.updateStatus [] "L1" LeaveStatus.APPROVED).1,
        [Effect.leaveLookup "L1", Effect.storeTx]⟩ := by
  exact updateStatus_no_row_noop [] [⟨"L1", "E1", 0, 1, LeaveStatus.PENDING⟩] [] [] 0
    "L1" LeaveStatus.APPROVED "K" ⟨"L1", "E1", 0, 1, LeaveStatus.PENDING⟩ (by rfl)
    (by rfl) (by rfl) (by rfl)

/-- After a department cache invalidation with a nonempty department id, no
entry whose key matches the department's `employees*` pattern survives. -/
lemma invalidate_clears (st : RedisState) (d : String) (hd : d ≠ "") :
    ∀ e ∈ (LeaveRequestService.invalidateDepartmentEmployeeCaches st d).1,
      globMatch (departmentEmployeesPattern d).toList e.key.toList = false := by
  intro e he
  simp only [LeaveRequestService.invalidateDepartmentEmployeeCaches] at he
  rw [if_neg (show ¬((d == "") = true) by simp [hd])] at he
  by_cases hk : (redisKeys st (departmentEmployeesPattern d)).length ≠ 0
  · rw [if_pos hk] at he
    cases hb : globMatch (departmentEmployeesPattern d).toList e.key.toList
    · rfl
    · exfalso
      unfold redisDel at he
      rw [List.mem_filter] at he
      obtain ⟨hest, hnc⟩ := he
      have hkey : e.key ∈ redisKeys st (departmentEmployeesPattern d) := by
        unfold redisKeys
        rw [List.mem_map]
        refine ⟨e, ?_, rfl⟩
        rw [List.mem_filter]
        exact ⟨hest, hb⟩
      simp at hnc
      exact hnc hkey
  · rw [if_neg hk] at he
    cases hb : globMatch (departmentEmployeesPattern d).toList e.key.toList
    · rfl
    · exfalso
      have hkey : e.key ∈ redisKeys st (departmentEmployeesPattern d) := by
        unfold redisKeys
        rw [List.mem_map]
        refine ⟨e, ?_, rfl⟩
        rw [List.mem_filter]
        exact ⟨he, hb⟩
      rw [not_not] at hk
      rw [List.length_eq_zero.mp hk] at hkey
      exact absurd hkey (List.not_mem_nil e.key)

/-- C6: `invalidateDepartmentEmployeeCaches` (both the leave-request and the
employee service copies, which are pointwise equal) is a no-op on an empty
department id; with a nonempty id it scans the `departments:<id>:employees*`
pattern, deletes every matching key in a single batch `del` when any exist
(performing only the scan otherwise), and afterwards no key matching the
pattern remains.  Consequently, after every successful department-scoped
mutation — leave creation, status update, leave deletion, employee creation
— that resolved a nonempty department id, no cache key under that
department's prefix survives in the final Redis state. -/
theorem invalidateDepartmentEmployeeCaches_spec
    (st redis redisE : RedisState) (d : String)
    (employees employeesAtEmailCheck employeesTx : List Employee)
    (leavesR leavesT : List LeaveRequest) (departments : List Department)
    (newId newIdE key keyE id : String) (now nowE : Int)
    (payload : LeaveRequestInsert) (employeeInfo : EmployeeInsert)
    (status : LeaveStatus) (employee emp emp2 : Employee) (dept : Department)
    (existing updated existingD : LeaveRequest) :
    (LeaveRequestService.invalidateDepartmentEmployeeCaches st "" = (st, [])) ∧
    (EmployeeService.invalidateDepartmentEmployeeCaches st d =
      LeaveRequestService.invalidateDepartmentEmployeeCaches st d) ∧
    (d ≠ "" → ∀ e ∈ (LeaveRequestService.invalidateDepartmentEmployeeCaches st d).1,
      globMatch (departmentEmployeesPattern d).toList e.key.toList = false) ∧
    (d ≠ "" → redisKeys st (departmentEmployeesPattern d) ≠ [] →
      (LeaveRequestService.invalidateDepartmentEmployeeCaches st d).2 =
        [Effect.keysScan (departmentEmployeesPattern d),
          Effect.del (redisKeys st (departmentEmployeesPattern d))]) ∧
    (d ≠ "" → redisKeys st (departmentEmployeesPattern d) = [] →
      LeaveRequestService.invalidateDepartmentEmployeeCaches st d =
        (st, [Effect.keysScan (departmentEmployeesPattern d)])) ∧
    (redisGet redis ("idempotency:leaverequest:create:" ++ key) = none →
      employees.find? (fun e => e.id == payload.employeeId) = some employee →
      ¬ payload.startDate ≥ payload.endDate →
      employee.departmentId ≠ "" →
      ∀ e ∈ (LeaveRequestService.createLeaveRequest redis employees leavesT none newId
          now payload key).redis,
        globMatch (departmentEmployeesPattern employee.departmentId).toList
          e.key.toList = false) ∧
    (redisGet redis ("idempotency:leaverequest:update:" ++ key) = none →
      leavesR.find? (fun l => l.id == id) = some existing →
      existing.status = LeaveStatus.PENDING →
      (LeaveRequestRepository.updateStatus leavesT id status).2 = some updated →
      employees.find? (fun e => e.id == updated.employeeId) = some emp →
      emp.departmentId ≠ "" →
      ∀ e ∈ (LeaveRequestService.updateStatus redis leavesR leavesT employees none now
          id status key).redis,
        globMatch (departmentEmployeesPattern emp.departmentId).toList
          e.key.toList = false) ∧
    (redisGet redis ("idempotency:leaverequest:delete:" ++ key) = none →
      leavesR.find? (fun l => l.id == id) = some existingD →
      existingD.employeeId ≠ "" →
      employees.find? (fun e => e.id == existingD.employeeId) = some emp2 →
      emp2.departmentId ≠ "" →
      ∀ e ∈ (LeaveRequestService.deleteLeaveRequest redis leavesR leavesT employees
          none now id key).redis,
        globMatch (departmentEmployeesPattern emp2.departmentId).toList
          e.key.toList = false) ∧
    (redisGet redisE ("idempotency:employee:" ++ keyE) = none →
      employeeInfo.departmentId ≠ "" →
      departments.find? (fun dd => dd.id == employeeInfo.departmentId) = some dept →
      emailRegexTest employeeInfo.email = true →
      employeesAtEmailCheck.find? (fun e => e.email == employeeInfo.email) = none →
      ∀ e ∈ (EmployeeService.createEmployee redisE departments employeesAtEmailCheck
          employeesTx none newIdE nowE employeeInfo keyE).redis,
        globMatch (departmentEmployeesPattern employeeInfo.departmentId).toList
          e.key.toList = false) := by
  refine ⟨rfl, rfl, fun hd => invalidate_clears st d hd, ?_, ?_, ?_, ?_, ?_, ?_⟩
  · intro hd hne
    simp only [LeaveRequestService.invalidateDepartmentEmployeeCaches]
    rw [if_neg (show ¬((d == "") = true) by simp [hd])]
    rw [if_pos (show (redisKeys st (departmentEmployeesPattern d)).length ≠ 0 from
      fun h => hne (List.length_eq_zero.mp h))]
  · intro hd hke
    simp only [LeaveRequestService.invalidateDepartmentEmployeeCaches]
    rw [if_neg (show ¬((d == "") = true) by simp [hd])]
    rw [if_neg (show ¬((redisKeys st (departmentEmployeesPattern d)).length ≠ 0) by
      simp [hke])]
  · intro hget hemp hdate hd e he
    rw [createLeaveRequest_success_eq redis employees leavesT newId now payload key
      employee hget hemp hdate] at he
    dsimp only at he
    rw [if_neg (show ¬((employee.departmentId == "") = true) by simp [hd])] at he
    exact invalidate_clears _ _ hd e he
  · intro hget hfd hpend hupd hemp hd e he
    rw [updateStatus_success_eq redis leavesR leavesT employees now id status key
      existing updated hget hfd hpend hupd] at he
    dsimp only at he
    rw [hemp] at he
    dsimp only at he
    rw [if_neg (show ¬((emp.departmentId == "") = true) by simp [hd])] at he
    exact invalidate_clears _ _ hd e he
  · intro hget hfd hne1 hemp hd e he
    unfold LeaveRequestService.deleteLeaveRequest at he
    simp only [hget, hfd] at he
    rw [if_neg (show ¬((existingD.employeeId == "") = true) by simp [hne1])] at he
    rw [hemp] at he
    dsimp only at he
    rw [if_neg (show ¬((emp2.departmentId == "") = true) by simp [hd])] at he
    exact invalidate_clears _ _ hd e he
  · intro hget hdep hdfind hemail hdup e he
    unfold EmployeeService.createEmployee at he
    simp only [hget] at he
    rw [if_neg (show ¬((employeeInfo.departmentId == "") = true) by simp [hdep])] at he
    rw [hdfind] at he
    dsimp only at he
    rw [hemail] at he
    simp only [Bool.not_true, Bool.false_eq_true, if_false] at he
    rw [hdup] at he
    dsimp only at he
    rw [if_neg (show ¬((employeeInfo.departmentId == "") = true) by simp [hdep])] at he
    exact invalidate_clears _ _ hdep e he

/-- A cache state holding one page of a department listing and an unrelated
key, used to witness the invalidation claims. -/
def c6St : RedisState :=
  [⟨"departments:D1:employees:page=1&limit=10", RVal.listing ⟨[], 0, 1, 10⟩, 60⟩,
   ⟨"employees:all", RVal.idemCreate "x" 0, 60⟩]

/-- C6 witness: the invalidation spec applied at concrete states — the scan
and single batch delete on `c6St`, survival only of non-matching keys, and
the post-mutation absence of the department's cache keys for a concrete
leave creation, status update, deletion, and employee creation. -/
theorem invalidateDepartmentEmployeeCaches_spec_witness :
    ((LeaveRequestService.invalidateDepartmentEmployeeCaches c6St "D1").2 =
      [Effect.keysScan (departmentEmployeesPattern "D1"),
        Effect.del (redisKeys c6St (departmentEmployeesPattern "D1"))]) ∧
    globMatch (departmentEmployeesPattern "D1").toList
      (RedisEntry.mk "employees:all" (RVal.idemCreate "x" 0) 60).key.toList = false ∧
    globMatch (departmentEmployeesPattern "D1").toList
      (RedisEntry.mk "idempotency:leaverequest:create:K" (RVal.idemCreate "L9" 0)
        86400).key.toList = false ∧
    globMatch (departmentEmployeesPattern "D1").toList
      (RedisEntry.mk "idempotency:leaverequest:update:K"
        (RVal.idemUpdate "L1" 0 LeaveStatus.APPROVED) 86400).key.toList = false ∧
    globMatch (departmentEmployeesPattern "D1").toList
      (RedisEntry.mk "idempotency:leaverequest:delete:K" (RVal.idemDelete "L1" 0)
        86400).key.toList = false ∧
    globMatch (departmentEmployeesPattern "D1").toList
      (RedisEntry.mk "idempotency:employee:KE" (RVal.idemEmployee "E9" 0)
        86400).key.toList = false := by
  have h := invalidateDepartmentEmployeeCaches_spec c6St c6St [] "D1"
    [⟨"E1", "Ann", "a@b.c", "D1"⟩] [] [] [⟨"L1", "E1", 0, 1, LeaveStatus.PENDING⟩]
    [⟨"L1", "E1", 0, 1, LeaveStatus.PENDING⟩] [⟨"D1", "Eng"⟩]
    "L9" "E9" "K" "KE" "L1" 0 0 ⟨"E1", 0, 86400000⟩ ⟨"Ann", "new@b.c", "D1"⟩
    LeaveStatus.APPROVED ⟨"E1", "Ann", "a@b.c", "D1"⟩ ⟨"E1", "Ann", "a@b.c", "D1"⟩
    ⟨"E1", "Ann", "a@b.c", "D1"⟩ ⟨"D1", "Eng"⟩
    ⟨"L1", "E1", 0, 1, LeaveStatus.PENDING⟩ ⟨"L1", "E1", 0, 1, LeaveStatus.APPROVED⟩
    ⟨"L1", "E1", 0, 1, LeaveStatus.PENDING⟩
  refine ⟨h.2.2.2.1 (by decide) (by decide), ?_, ?_, ?_, ?_, ?_⟩
  · exact h.2.2.1 (by decide) ⟨"employees:all", RVal.idemCreate "x" 0, 60⟩ (by decide)
  · exact h.2.2.2.2.2.1 (by rfl) (by rfl) (by decide) (by decide)
      ⟨"idempotency:leaverequest:create:K", RVal.idemCreate "L9" 0, 86400⟩ (by decide)
  · exact h.2.2.2.2.2.2.1 (by rfl) (by rfl) (by rfl) (by rfl) (by rfl) (by decide)
      ⟨"idempotency:leaverequest:update:K", RVal.idemUpdate "L1" 0 LeaveStatus.APPROVED,
        86400⟩ (by decide)
  · exact h.2.2.2.2.2.2.2.1 (by rfl) (by rfl) (by decide) (by rfl) (by decide)
      ⟨"idempotency:leaverequest:delete:K", RVal.idemDelete "L1" 0, 86400⟩ (by decide)
  · exact h.2.2.2.2.2.2.2.2 (by rfl) (by decide) (by rfl) (by decide) (by rfl)
      ⟨"idempotency:employee:KE", RVal.idemEmployee "E9" 0, 86400⟩ (by decide)

/-- A `setEx` binding is what a subsequent `get` of the same key returns. -/
lemma redisGet_setEx_self (st : RedisState) (k : String) (ttl : Nat) (v : RVal) :
    redisGet (redisSetEx st k ttl v) k = some v := by
  unfold redisGet redisSetEx
  rw [List.find?_cons_of_pos _ (by simp)]
  rfl

/-- C9: when the payload's `departmentId` is empty, `createEmployee` skips
the department-existence check entirely — no department lookup is performed
in any branch and no NotFound error can be returned — and the call proceeds
to email validation (an invalid email yields the invalid-email error) and,
when every remaining check passes, to the store transaction. -/
theorem createEmployee_empty_department_skips_check
    (redis : RedisState) (departments : List Department)
    (employeesE employeesTx : List Employee) (txFails : Option String)
    (newId : String) (now : Int) (employeeInfo : EmployeeInsert) (key : String)
    (hdep : employeeInfo.departmentId = "") :
    (∀ d2, Effect.departmentLookup d2 ∉
      (EmployeeService.createEmployee redis departments employeesE employeesTx txFails
        newId now employeeInfo key).effects) ∧
    (∀ m, (EmployeeService.createEmployee redis departments employeesE employeesTx
        txFails newId now employeeInfo key).result ≠
      Except.error (AppErr.notFound m)) ∧
    (redisGet redis ("idempotency:employee:" ++ key) = none →
      emailRegexTest employeeInfo.email = false →
      (EmployeeService.createEmployee redis departments employeesE employeesTx txFails
          newId now employeeInfo key).result =
        Except.error (.genericError "Invalid email format")) ∧
    (redisGet redis ("idempotency:employee:" ++ key) = none →
      emailRegexTest employeeInfo.email = true →
      employeesE.find? (fun e => e.email == employeeInfo.email) = none →
      txFails = none →
      Effect.storeTx ∈ (EmployeeService.createEmployee redis departments employeesE
        employeesTx txFails newId now employeeInfo key).effects) := by
  refine ⟨?_, ?_, ?_, ?_⟩
  · intro d2 hmem
    unfold EmployeeService.createEmployee at hmem
    simp only [hdep, beq_self_eq_true, if_true] at hmem
    split at hmem
    · simp at hmem
    · split at hmem
      · simp at hmem
      · split at hmem
        · simp at hmem
        · split at hmem
          · simp at hmem
          · simp [hdep] at hmem
  · intro m hres
    unfold EmployeeService.createEmployee at hres
    simp only [hdep, beq_self_eq_true, if_true] at hres
    split at hres
    · simp at hres
    · split at hres
      · simp at hres
      · split at hres
        · simp at hres
        · split at hres
          · simp at hres
          · simp at hres
  · intro h1 h2
    unfold EmployeeService.createEmployee
    simp [hdep, h1, h2]
  · intro h1 h2 h3 h4
    subst h4
    unfold EmployeeService.createEmployee
    simp [hdep, h1, h2, h3]

/-- C9 witness: a concrete employee payload with empty `departmentId`
reaches the store transaction without any department lookup or NotFound. -/
theorem createEmployee_empty_department_skips_check_witness :
    (Effect.departmentLookup "D1" ∉
      (EmployeeService.createEmployee [] [] [] [] none "E9" 0 ⟨"Ann", "a@b.c", ""⟩
        "K").effects) ∧
    ((EmployeeService.createEmployee [] [] [] [] none "E9" 0 ⟨"Ann", "a@b.c", ""⟩
        "K").result ≠ Except.error (AppErr.notFound "Department with ID  not found")) ∧
    (Effect.storeTx ∈ (EmployeeService.createEmployee [] [] [] [] none "E9" 0
      ⟨"Ann", "a@b.c", ""⟩ "K").effects) := by
  have h := createEmployee_empty_department_skips_check [] [] [] [] none "E9" 0
    ⟨"Ann", "a@b.c", ""⟩ "K" (by rfl)
  exact ⟨h.1 "D1", h.2.1 "Department with ID  not found",
    h.2.2.2 (by rfl) (by decide) (by rfl) (by rfl)⟩

/-- The cache key `departments:<id>:employees:page=<p>&limit=<l>` built by
`listEmployeesInDepartment`. -/
def listCacheKey (departmentId : String) (page limit : Nat) : String :=
  "departments:" ++ departmentId ++ ":employees:page=" ++ toString page ++
    "&limit=" ++ toString limit

/-- The full output of `listEmployeesInDepartment` on a cache miss. -/
lemma listEmployeesInDepartment_miss_eq
    (redis : RedisState) (employees : List Employee) (departmentId : String)
    (page limit : Nat)
    (hget : redisGet redis (listCacheKey departmentId page limit) = none) :
    DepartmentService.listEmployeesInDepartment redis employees departmentId page
        limit =
      ⟨⟨((employees.filter (fun emp => emp.departmentId == departmentId)).drop
            ((page - 1) * limit)).take limit,
          (employees.filter (fun emp => emp.departmentId == departmentId)).length,
          page, limit⟩,
        redisSetEx redis (listCacheKey departmentId page limit)
          DepartmentService.CACHE_TTL (RVal.listing
            ⟨((employees.filter (fun emp => emp.departmentId == departmentId)).drop
                ((page - 1) * limit)).take limit,
              (employees.filter (fun emp => emp.departmentId == departmentId)).length,
              page, limit⟩),
        [Effect.allEmployeesScan,
          Effect.setEx (listCacheKey departmentId page limit)
            DepartmentService.CACHE_TTL (RVal.listing
              ⟨((employees.filter (fun emp => emp.departmentId == departmentId)).drop
                  ((page - 1) * limit)).take limit,
                (employees.filter
                  (fun emp => emp.departmentId == departmentId)).length,
                page, limit⟩)]⟩ := by
  unfold DepartmentService.listEmployeesInDepartment listCacheKey
  simp only [listCacheKey] at hget
  simp only [hget]

/-- C10: `listEmployeesInDepartment` on a cache miss (for `page ≥ 1`)
returns exactly the employees of the department sliced from index
`(page-1)*limit` for at most `limit` items with `count` the total number of
matches, and caches the response under the page's key for
`CACHE_TTL = 60` seconds; on a cache hit it returns the parsed cached value
with no repository scan and the state untouched; the parameter defaults are
`page = 1, limit = 10`. -/
theorem listEmployeesInDepartment_spec
    (redis : RedisState) (employees : List Employee) (departmentId : String)
    (page limit : Nat) (r : ListResponse) :
    (DepartmentService.CACHE_TTL = 60) ∧
    (redisGet redis (listCacheKey departmentId page limit) = none → 1 ≤ page →
      (DepartmentService.listEmployeesInDepartment redis employees departmentId page
          limit).response =
        ⟨((employees.filter (fun emp => emp.departmentId == departmentId)).drop
            ((page - 1) * limit)).take limit,
          (employees.filter (fun emp => emp.departmentId == departmentId)).length,
          page, limit⟩ ∧
      redisGet (DepartmentService.listEmployeesInDepartment redis employees departmentId
          page limit).redis (listCacheKey departmentId page limit) =
        some (RVal.listing (DepartmentService.listEmployeesInDepartment redis employees
          departmentId page limit).response) ∧
      (DepartmentService.listEmployeesInDepartment redis employees departmentId page
          limit).effects =
        [Effect.allEmployeesScan,
          Effect.setEx (listCacheKey departmentId page limit) DepartmentService.CACHE_TTL
            (RVal.listing (DepartmentService.listEmployeesInDepartment redis employees
              departmentId page limit).response)]) ∧
    (redisGet redis (listCacheKey departmentId page limit) = some (RVal.listing r) →
      DepartmentService.listEmployeesInDepartment redis employees departmentId page
        limit = ⟨r, redis, []⟩) ∧
    (DepartmentService.listEmployeesInDepartmentDefaults redis employees departmentId =
      DepartmentService.listEmployeesInDepartment redis employees departmentId 1 10) := by
  refine ⟨rfl, ?_, ?_, rfl⟩
  · intro hget _
    rw [listEmployeesInDepartment_miss_eq redis employees departmentId page limit hget]
    exact ⟨rfl, redisGet_setEx_self _ _ _ _, rfl⟩
  · intro hget
    unfold DepartmentService.listEmployeesInDepartment
    simp only [listCacheKey] at hget
    simp only [hget]
    rfl

/-- C10 witness: a concrete miss computes, pages, and caches the listing;
a concrete hit returns the cached response untouched. -/
theorem listEmployeesInDepartment_spec_witness :
    ((DepartmentService.listEmployeesInDepartment []
        [⟨"E1", "Ann", "a@b.c", "D1"⟩, ⟨"E2", "Bob", "b@b.c", "D2"⟩,
          ⟨"E3", "Cid", "c@b.c", "D1"⟩] "D1" 1 10).response =
      ⟨(([⟨"E1", "Ann", "a@b.c", "D1"⟩, ⟨"E2", "Bob", "b@b.c", "D2"⟩,
            ⟨"E3", "Cid", "c@b.c", "D1"⟩] : List Employee).filter
          (fun emp => emp.departmentId == "D1")).drop ((1 - 1) * 10) |>.take 10,
        (([⟨"E1", "Ann", "a@b.c", "D1"⟩, ⟨"E2", "Bob", "b@b.c", "D2"⟩,
            ⟨"E3", "Cid", "c@b.c", "D1"⟩] : List Employee).filter
          (fun emp => emp.departmentId == "D1")).length, 1, 10⟩) ∧
    (DepartmentService.listEmployeesInDepartment
        [⟨listCacheKey "D1" 1 10, RVal.listing ⟨[], 0, 1, 10⟩, 60⟩] [] "D1" 1 10 =
      ⟨⟨[], 0, 1, 10⟩, [⟨listCacheKey "D1" 1 10, RVal.listing ⟨[], 0, 1, 10⟩, 60⟩],
        []⟩) := by
  constructor
  · exact ((listEmployeesInDepartment_spec []
      [⟨"E1", "Ann", "a@b.c", "D1"⟩, ⟨"E2", "Bob", "b@b.c", "D2"⟩,
        ⟨"E3", "Cid", "c@b.c", "D1"⟩] "D1" 1 10 ⟨[], 0, 1, 10⟩).2.1 (by rfl)
      (by decide)).1
  · exact (listEmployeesInDepartment_spec
      [⟨listCacheKey "D1" 1 10, RVal.listing ⟨[], 0, 1, 10⟩, 60⟩] [] "D1" 1 10
      ⟨[], 0, 1, 10⟩).2.2.1 (by rfl)
